import Mathlib

/-!
Verification of the ingestion-and-aggregation pipeline of the
howfuckedarewe air-quality tracker.

The definitions below are shallow embeddings of the TypeScript source:

* `workers/ingestion/src/index.ts` — fetch client with retry/backoff
  (`fetchWaqiData`, `getBackoffDelay`), the sharding block of
  `ingestAllCities`, `computeCitySnapshot`, `updateDailyAggregate`,
  `average`;
* the aggregator worker — `computeNationalAggregateForDate`,
  `backfillNationalAggregates`;
* `src/lib/validation.ts` — `validatePm25Value`, `detectImpossibleValues`.

Numbers are modelled as rationals.  Database reads are passed in as
explicit lists (in query-result order) or as functions from a date to a
query outcome; database writes are the returned values (`none` means the
corresponding write is skipped).  `Math.random()` jitter is passed in as
an explicit function of the attempt number.  JavaScript's stable
`Array.prototype.sort` is embedded as `List.insertionSort`, which is a
stable sort and therefore produces the same list for these comparators.
-/

/-! ### Fetch client (workers/ingestion/src/index.ts) -/

/-- Retry configuration constants (`RETRY_CONFIG` in the source). -/
structure RetryConfig where
  maxRetries : ℕ
  baseDelayMs : ℚ
  maxDelayMs : ℚ
  backoffMultiplier : ℚ
deriving DecidableEq

def RETRY_CONFIG : RetryConfig :=
  { maxRetries := 3, baseDelayMs := 1000, maxDelayMs := 10000, backoffMultiplier := 2 }

/-- Exponential backoff delay with jitter (`getBackoffDelay`).  The source
calls `Math.random()` for the jitter; here the random draw (a value in
`[0,1]`) is an explicit argument. -/
def getBackoffDelay (randomDraw : ℚ) (attempt : ℕ) : ℚ :=
  let exponentialDelay := RETRY_CONFIG.baseDelayMs * RETRY_CONFIG.backoffMultiplier ^ attempt
  let jitter := randomDraw * (3 / 10) * exponentialDelay
  min (exponentialDelay + jitter) RETRY_CONFIG.maxDelayMs

/-- One HTTP outcome observed by `fetchWaqiData` for a single attempt. -/
inductive WaqiHttp where
  /-- HTTP 429 with the parsed `Retry-After` header in seconds
  (`none` means the header was absent). -/
  | status429 (retryAfter : Option ℕ)
  /-- HTTP status ≥ 500. -/
  | status5xx
  /-- a non-ok status other than 429 and below 500. -/
  | clientError
  /-- 2xx whose JSON body fails the structural check. -/
  | okInvalid
  /-- 2xx with a structurally valid JSON body. -/
  | okValid
  /-- the fetch itself threw (network error). -/
  | netError
deriving DecidableEq

/-- Milliseconds slept for a 429: `parseInt(header or '60') * 1000`. -/
def retryAfterMs (retryAfter : Option ℕ) : ℚ :=
  ((retryAfter.getD 60 : ℕ) : ℚ) * 1000

/-- Observable outcome of one `fetchWaqiData` call: whether a payload was
returned (vs. `null`), the sequence of sleeps performed (ms), and how
many HTTP fetches were issued. -/
structure FetchTrace where
  success : Bool
  sleeps : List ℚ
  fetches : ℕ
deriving DecidableEq

/-- The retry loop of `fetchWaqiData`, one recursive step per loop
iteration.  `attempt` is the loop counter; `fuel` is the number of loop
iterations left (`maxRetries + 1 - attempt`); `resp` gives the HTTP
outcome of each attempt and `rand` the jitter draw used by the backoff
delay computed at the top of that iteration. -/
def fetchWaqiDataAux (resp : ℕ → WaqiHttp) (rand : ℕ → ℚ) : ℕ → ℕ → FetchTrace
  | _, 0 => ⟨false, [], 0⟩
  | attempt, fuel + 1 =>
    let pre : List ℚ :=
      if attempt = 0 then [] else [getBackoffDelay (rand attempt) (attempt - 1)]
    match resp attempt with
    | WaqiHttp.status429 ra =>
      let t := fetchWaqiDataAux resp rand (attempt + 1) fuel
      ⟨t.success, pre ++ [retryAfterMs ra] ++ t.sleeps, t.fetches + 1⟩
    | WaqiHttp.status5xx =>
      let t := fetchWaqiDataAux resp rand (attempt + 1) fuel
      ⟨t.success, pre ++ t.sleeps, t.fetches + 1⟩
    | WaqiHttp.clientError => ⟨false, pre, 1⟩
    | WaqiHttp.okInvalid =>
      let t := fetchWaqiDataAux resp rand (attempt + 1) fuel
      ⟨t.success, pre ++ t.sleeps, t.fetches + 1⟩
    | WaqiHttp.okValid => ⟨true, pre, 1⟩
    | WaqiHttp.netError =>
      let t := fetchWaqiDataAux resp rand (attempt + 1) fuel
      ⟨t.success, pre ++ t.sleeps, t.fetches + 1⟩

/-- `fetchWaqiData`: run the loop from attempt 0 with
`maxRetries + 1` iterations available. -/
def fetchWaqiData (resp : ℕ → WaqiHttp) (rand : ℕ → ℚ) : FetchTrace :=
  fetchWaqiDataAux resp rand 0 (RETRY_CONFIG.maxRetries + 1)

/-! ### Shard selector (the sharding block of `ingestAllCities`) -/

/-- The city subset processed by one invocation of `ingestAllCities`:
manual triggers process everything, scheduled triggers split the list in
half (ceiling division), even hours taking `slice(0, half)` and odd
hours `slice(half)`. -/
def citiesToProcess {α : Type} (source : String) (currentHour : ℕ)
    (cities : List α) : List α :=
  if source = "manual" then cities
  else
    let half := (cities.length + 1) / 2
    if currentHour % 2 = 0 then cities.take half
    else cities.drop half

/-! ### City-hour snapshot (`computeCitySnapshot`, `average`) -/

/-- A station reading as assembled by `insertReading` (the fields used by
aggregation; each pollutant is independently nullable). -/
structure StationReading where
  stationId : ℕ
  area : String
  pm25 : Option ℚ
  pm10 : Option ℚ
  o3 : Option ℚ
  no2 : Option ℚ
  so2 : Option ℚ
  co : Option ℚ
  aqi : Option ℚ
  dominantPollutant : Option String
deriving DecidableEq

/-- The `average` utility: `null` for an empty array, else
`arr.reduce((a, b) => a + b, 0) / arr.length`. -/
def average (arr : List ℚ) : Option ℚ :=
  if arr.length = 0 then none
  else some (arr.foldl (fun a b => a + b) 0 / (arr.length : ℚ))

/-- JavaScript's `.filter(Boolean)` on an array of nullable numbers:
drops `null` and `0` (both falsy), keeps everything else. -/
def filterTruthy (l : List (Option ℚ)) : List ℚ :=
  (l.filterMap id).filter (fun v => decide (v ≠ 0))

/-- The readings kept by `computeCitySnapshot`:
`readings.filter(r => r.pm25 !== null && r.pm25 !== undefined)`. -/
def validReadingsOf (readings : List StationReading) : List StationReading :=
  readings.filter (fun r => decide (r.pm25 ≠ none))

/-- The sorted PM2.5 values of the valid readings
(`.map(r => r.pm25).sort((a, b) => a - b)`); JavaScript's stable sort is
embedded as insertion sort. -/
def sortedPm25Of (readings : List StationReading) : List ℚ :=
  List.insertionSort (fun a b => a ≤ b) ((validReadingsOf readings).filterMap (fun r => r.pm25))

/-- Tally of the stations' dominant-pollutant labels in first-seen order
(the `pollutantCounts` object; JavaScript object keys keep insertion
order, and the falsy check skips `null` and the empty string). -/
def tallyPollutants (labels : List String) : List (String × ℕ) :=
  labels.foldl
    (fun acc s =>
      if acc.any (fun p => p.1 = s) then
        acc.map (fun p => if p.1 = s then (p.1, p.2 + 1) else p)
      else acc ++ [(s, 1)])
    []

/-- First entry with the maximal count, matching
`Object.entries(counts).sort((a, b) => b[1] - a[1])[0]` under a stable
descending sort. -/
def argmaxCount : List (String × ℕ) → Option String
  | [] => none
  | p :: t => some ((t.foldl (fun best q => if best.2 < q.2 then q else best) p).1)

/-- The city-wide dominant pollutant: mode of the valid readings'
individually reported dominant pollutants. -/
def dominantPollutantOf (readings : List StationReading) : Option String :=
  argmaxCount (tallyPollutants
    (((validReadingsOf readings).filterMap (fun r => r.dominantPollutant)).filter
      (fun s => decide (s ≠ ""))))

/-- The city-hour snapshot record built by `computeCitySnapshot`. -/
structure CitySnapshot where
  avgPm25 : ℚ
  minPm25 : ℚ
  maxPm25 : ℚ
  medianPm25 : ℚ
  avgPm10 : Option ℚ
  avgO3 : Option ℚ
  avgNo2 : Option ℚ
  avgSo2 : Option ℚ
  avgCo : Option ℚ
  totalStations : ℕ
  validStations : ℕ
  dominantPollutant : Option String
  qualityStatus : String
deriving DecidableEq

/-- `computeCitySnapshot`: filter to readings with non-null PM2.5, bail
out with no write when none remain, else compute avg/min/max/median over
the sorted PM2.5 values, per-pollutant truthy averages, the dominant
pollutant and the quality label.  `none` models the skipped write. -/
def computeCitySnapshot (readings : List StationReading)
    (totalStationCount : ℕ) : Option CitySnapshot :=
  let validReadings := validReadingsOf readings
  if validReadings.length = 0 then none
  else
    let pm25Values := sortedPm25Of readings
    let n := pm25Values.length
    some
      { avgPm25 := pm25Values.foldl (fun a b => a + b) 0 / (n : ℚ)
        minPm25 := pm25Values.headD 0
        maxPm25 := pm25Values.getLastD 0
        medianPm25 :=
          if n % 2 = 0 then (pm25Values.getD (n / 2 - 1) 0 + pm25Values.getD (n / 2) 0) / 2
          else pm25Values.getD (n / 2) 0
        avgPm10 := average (filterTruthy (validReadings.map (fun r => r.pm10)))
        avgO3 := average (filterTruthy (validReadings.map (fun r => r.o3)))
        avgNo2 := average (filterTruthy (validReadings.map (fun r => r.no2)))
        avgSo2 := average (filterTruthy (validReadings.map (fun r => r.so2)))
        avgCo := average (filterTruthy (validReadings.map (fun r => r.co)))
        totalStations := totalStationCount
        validStations := validReadings.length
        dominantPollutant := dominantPollutantOf readings
        qualityStatus :=
          if (totalStationCount : ℚ) * (1 / 2) ≤ (validReadings.length : ℚ) then "healthy"
          else "degraded" }

/-! ### City-day aggregate (`updateDailyAggregate`) -/

/-- Health-metric constants (`METRICS`), shared by both workers. -/
structure MetricsConfig where
  WHO_GUIDELINE : ℚ
  CIGARETTE_PM25_EQUIVALENT : ℚ
  AQLI_YEARS_PER_10UG : ℚ
deriving DecidableEq

def METRICS : MetricsConfig :=
  { WHO_GUIDELINE := 5, CIGARETTE_PM25_EQUIVALENT := 22, AQLI_YEARS_PER_10UG := 98 / 100 }

/-- One row of the `city_snapshots` query in `updateDailyAggregate`
(ordered by `recorded_at`); `recordedHour` is
`new Date(s.recorded_at).getHours()`. -/
structure SnapRow where
  avg_pm25 : ℚ
  min_pm25 : ℚ
  max_pm25 : ℚ
  recordedHour : ℕ
deriving DecidableEq

/-- The row written into `daily_aggregates`. -/
structure DailyAgg where
  avgPm25 : Option ℚ
  minPm25 : Option ℚ
  maxPm25 : Option ℚ
  peakHour : ℕ
  peakPm25 : ℚ
  cigarettesEquivalent : ℚ
  yearsLostPerYear : ℚ
  whoViolationFactor : ℚ
  hoursWithData : ℕ
deriving DecidableEq

/-- The peak-hour fold of `updateDailyAggregate`: starting from
`peakHour = 0, peakPm25 = 0`, each snapshot with a strictly larger
average replaces the running peak. -/
def peakAux : List SnapRow → ℕ × ℚ → ℕ × ℚ
  | [], acc => acc
  | s :: t, acc =>
    peakAux t (if acc.2 < s.avg_pm25 then (s.recordedHour, s.avg_pm25) else acc)

/-- `updateDailyAggregate` for one city-day, taking the day's snapshot
rows in query order.  Returns `none` (nothing written) when there are no
rows.  `avg_pm25`, `min_pm25` and `max_pm25` pass through
`.filter(Boolean)`, which drops zeros; `Math.min`/`Math.max` of an empty
spread (which would be infinite in JavaScript) is modelled as `none`. -/
def updateDailyAggregate (rows : List SnapRow) : Option DailyAgg :=
  if rows.length = 0 then none
  else
    let pm25Values := (rows.map (fun s => s.avg_pm25)).filter (fun v => decide (v ≠ 0))
    let avgPm25 := average pm25Values
    let peak := peakAux rows (0, 0)
    some
      { avgPm25 := avgPm25
        minPm25 := ((rows.map (fun s => s.min_pm25)).filter (fun v => decide (v ≠ 0))).min?
        maxPm25 := ((rows.map (fun s => s.max_pm25)).filter (fun v => decide (v ≠ 0))).max?
        peakHour := peak.1
        peakPm25 := peak.2
        cigarettesEquivalent :=
          match avgPm25 with
          | some a => a / METRICS.CIGARETTE_PM25_EQUIVALENT
          | none => 0
        yearsLostPerYear :=
          match avgPm25 with
          | some a => max 0 ((a - METRICS.WHO_GUIDELINE) / 10) * METRICS.AQLI_YEARS_PER_10UG
          | none => 0
        whoViolationFactor :=
          match avgPm25 with
          | some a => a / METRICS.WHO_GUIDELINE
          | none => 0
        hoursWithData := rows.length }

/-! ### Nation-day aggregate (aggregator worker) -/

/-- One row of the `daily_aggregates JOIN cities` query in
`computeNationalAggregateForDate` (the query keeps only rows with a
non-null `avg_pm25`; `population` is nullable). -/
structure CityRow where
  city_id : ℕ
  avg_pm25 : ℚ
  min_pm25 : ℚ
  max_pm25 : ℚ
  population : Option ℚ
  city_name : String
deriving DecidableEq

/-- The comparator `(a, b) => a.avg_pm25 - b.avg_pm25` as a relation. -/
def cityLe (a b : CityRow) : Prop := a.avg_pm25 ≤ b.avg_pm25

instance : DecidableRel cityLe :=
  fun a b => inferInstanceAs (Decidable (a.avg_pm25 ≤ b.avg_pm25))

instance : IsTotal CityRow cityLe := ⟨fun a b => le_total a.avg_pm25 b.avg_pm25⟩

instance : IsTrans CityRow cityLe := ⟨fun _ _ _ hab hbc => le_trans hab hbc⟩

/-- The row written into `national_daily_aggregates`. -/
structure NationalAgg where
  avgPm25 : ℚ
  weightedAvgPm25 : ℚ
  minPm25 : ℚ
  maxPm25 : ℚ
  citiesReporting : ℕ
  totalPopulation : ℚ
  cigarettesEquivalent : ℚ
  yearsLostPerYear : ℚ
  whoViolationFactor : ℚ
  worstCityId : ℕ
  bestCityId : ℕ
deriving DecidableEq

/-- `computeNationalAggregateForDate` on the day's city rows (in query
order).  An empty result set is the skipped case (`none`): no row is
written.  `[...cities].sort(...)` is a stable sort, embedded as
insertion sort; best city is the first element, worst the last. -/
def computeNationalAggregateForDate (cityData : List CityRow) : Option NationalAgg :=
  match cityData with
  | [] => none
  | c0 :: rest =>
    let cities := c0 :: rest
    let avgPm25 := cities.foldl (fun sum c => sum + c.avg_pm25) (0 : ℚ) / (cities.length : ℚ)
    let totalPopulation := cities.foldl (fun sum c => sum + c.population.getD 0) (0 : ℚ)
    let weightedAvgPm25 :=
      if 0 < totalPopulation then
        cities.foldl (fun sum c => sum + c.avg_pm25 * c.population.getD 0) (0 : ℚ) / totalPopulation
      else avgPm25
    let sortedByPm25 := List.insertionSort cityLe cities
    let bestCity := sortedByPm25.headD c0
    let worstCity := sortedByPm25.getLastD c0
    some
      { avgPm25 := avgPm25
        weightedAvgPm25 := weightedAvgPm25
        minPm25 := ((cities.map (fun c => c.min_pm25)).min?).getD 0
        maxPm25 := ((cities.map (fun c => c.max_pm25)).max?).getD 0
        citiesReporting := cities.length
        totalPopulation := totalPopulation
        cigarettesEquivalent := weightedAvgPm25 / METRICS.CIGARETTE_PM25_EQUIVALENT
        yearsLostPerYear :=
          max 0 ((weightedAvgPm25 - METRICS.WHO_GUIDELINE) / 10) * METRICS.AQLI_YEARS_PER_10UG
        whoViolationFactor := weightedAvgPm25 / METRICS.WHO_GUIDELINE
        worstCityId := worstCity.city_id
        bestCityId := bestCity.city_id }

/-! ### Backfill (aggregator worker) -/

/-- What happened to one date during a backfill: skipped (no city rows),
errored (the per-date computation threw), or processed (a national row
was written). -/
inductive DayOutcome where
  | skippedDay : DayOutcome
  | errorDay : DayOutcome
  | processedDay : NationalAgg → DayOutcome
deriving DecidableEq

/-- Result of `backfillNationalAggregates`: the two counters it returns,
plus the per-date trace (in visit order) of what happened. -/
structure BackfillResult where
  processed : ℕ
  errors : ℕ
  log : List (ℕ × DayOutcome)
deriving DecidableEq

/-- The backfill loop.  Dates are day numbers; `db d` is the outcome of
the date-`d` city-day query (`Except.error` models a thrown failure,
which the loop catches and counts).  `fuel` is the number of dates left
in the inclusive range. -/
def backfillAux (db : ℕ → Except Unit (List CityRow)) : ℕ → ℕ → BackfillResult
  | _, 0 => ⟨0, 0, []⟩
  | d, fuel + 1 =>
    match db d with
    | Except.error _ =>
      let rest := backfillAux db (d + 1) fuel
      ⟨rest.processed, rest.errors + 1, (d, DayOutcome.errorDay) :: rest.log⟩
    | Except.ok rows =>
      match computeNationalAggregateForDate rows with
      | none =>
        let rest := backfillAux db (d + 1) fuel
        ⟨rest.processed, rest.errors, (d, DayOutcome.skippedDay) :: rest.log⟩
      | some agg =>
        let rest := backfillAux db (d + 1) fuel
        ⟨rest.processed + 1, rest.errors, (d, DayOutcome.processedDay agg) :: rest.log⟩

/-- `backfillNationalAggregates` over the inclusive day range
`[startDate, endDate]` (the `while (current <= end)` loop stepping one
day at a time). -/
def backfillNationalAggregates (db : ℕ → Except Unit (List CityRow))
    (startDate endDate : ℕ) : BackfillResult :=
  backfillAux db startDate (endDate + 1 - startDate)

/-- The outcome of a single backfill date, determined pointwise by the
query result for that date. -/
def dayOutcome (db : ℕ → Except Unit (List CityRow)) (d : ℕ) : DayOutcome :=
  match db d with
  | Except.error _ => DayOutcome.errorDay
  | Except.ok rows =>
    match computeNationalAggregateForDate rows with
    | none => DayOutcome.skippedDay
    | some agg => DayOutcome.processedDay agg

/-- Whether date `d` errors during backfill. -/
def isErrorDay (db : ℕ → Except Unit (List CityRow)) (d : ℕ) : Bool :=
  match dayOutcome db d with
  | DayOutcome.errorDay => true
  | _ => false

/-- Whether date `d` is processed (a national row written) during
backfill. -/
def isProcessedDay (db : ℕ → Except Unit (List CityRow)) (d : ℕ) : Bool :=
  match dayOutcome db d with
  | DayOutcome.processedDay _ => true
  | _ => false

/-! ### Validation and anomaly detection (src/lib/validation.ts) -/

/-- PM2.5 bounds (`PM25_BOUNDS`). -/
structure Pm25Bounds where
  MIN : ℚ
  MAX_REASONABLE : ℚ
  MAX_POSSIBLE : ℚ
  TYPICAL_MIN : ℚ
  TYPICAL_MAX : ℚ
deriving DecidableEq

def PM25_BOUNDS : Pm25Bounds :=
  { MIN := 0, MAX_REASONABLE := 999, MAX_POSSIBLE := 1500, TYPICAL_MIN := 5, TYPICAL_MAX := 500 }

/-- The anomaly kinds of `AnomalyReport.type`. -/
inductive AnomalyType where
  | spike : AnomalyType
  | flatline : AnomalyType
  | outlier : AnomalyType
  | impossible : AnomalyType
deriving DecidableEq

/-- An anomaly report (`AnomalyReport`), with the expected range split
into its two fields. -/
structure AnomalyReport where
  stationId : ℕ
  stationName : String
  type : AnomalyType
  description : String
  value : ℚ
  expectedRangeMin : ℚ
  expectedRangeMax : ℚ
deriving DecidableEq

/-- The fields of the site-side `StationReading` used by
`detectImpossibleValues`. -/
structure VStationReading where
  id : ℕ
  name : String
  pm25Concentration : Option ℚ
deriving DecidableEq

/-- JavaScript's `%` on numbers (truncating remainder); it is only
applied here to positive operands, where truncation and floor agree. -/
def jsMod (a b : ℚ) : ℚ := a - b * ((⌊a / b⌋ : ℤ) : ℚ)

/-- `detectImpossibleValues`: a null PM2.5 yields no report; exactly 0 is
flagged as a `flatline`; a round multiple of 100 above 100 is flagged as
`impossible`; anything else passes. -/
def detectImpossibleValues (station : VStationReading) : Option AnomalyReport :=
  match station.pm25Concentration with
  | none => none
  | some pm25 =>
    if pm25 = 0 then
      some
        { stationId := station.id
          stationName := station.name
          type := AnomalyType.flatline
          description := "Station reading exactly 0 (possible sensor malfunction)"
          value := pm25
          expectedRangeMin := 1
          expectedRangeMax := PM25_BOUNDS.MAX_REASONABLE }
    else if 100 < pm25 ∧ jsMod pm25 100 = 0 then
      some
        { stationId := station.id
          stationName := station.name
          type := AnomalyType.impossible
          description := "Suspiciously round number - possible placeholder"
          value := pm25
          expectedRangeMin := PM25_BOUNDS.MIN
          expectedRangeMax := PM25_BOUNDS.MAX_REASONABLE }
    else none

/-- Result of a value validation (`ValidationResult`), with errors and
warnings reduced to their `code` strings. -/
structure ValidationResult where
  isValid : Bool
  errors : List String
  warnings : List String
deriving DecidableEq

/-- `validatePm25Value` on a nullable PM2.5 value (the NaN and
wrong-type branches cannot arise over ℚ and are omitted). -/
def validatePm25Value (value : Option ℚ) : ValidationResult :=
  match value with
  | none => ⟨false, ["NULL_VALUE"], []⟩
  | some v =>
    let errors :=
      (if v < PM25_BOUNDS.MIN then ["NEGATIVE_VALUE"] else []) ++
        (if PM25_BOUNDS.MAX_POSSIBLE < v then ["IMPOSSIBLE_VALUE"] else [])
    let warnings :=
      (if ¬PM25_BOUNDS.MAX_POSSIBLE < v ∧ PM25_BOUNDS.MAX_REASONABLE < v then
          ["EXTREME_VALUE"]
        else []) ++
        (if 0 < v ∧ v < PM25_BOUNDS.TYPICAL_MIN then ["SUSPICIOUSLY_LOW"] else [])
    ⟨errors.isEmpty, errors, warnings⟩

/-! ### Helper lemmas -/

/-- Folding `+` over a list of rationals adds the list sum to the seed. -/
theorem foldl_add_eq_sum (l : List ℚ) (init : ℚ) :
    l.foldl (fun a b => a + b) init = init + l.sum := by
  induction l generalizing init with
  | nil => simp
  | cons c t ih => simp [ih, add_assoc]

/-- Folding `+ f ·` over a list adds the sum of the mapped list. -/
theorem foldl_add_map_eq_sum {α : Type} (f : α → ℚ) (l : List α) (init : ℚ) :
    l.foldl (fun sum c => sum + f c) init = init + (l.map f).sum := by
  induction l generalizing init with
  | cons c t ih => simp [ih, add_assoc]
  | nil => simp

/-- The `average` utility, written with `List.sum`. -/
theorem average_eq_sum_div (l : List ℚ) :
    average l = if l.length = 0 then none else some (l.sum / (l.length : ℚ)) := by
  unfold average
  rw [foldl_add_eq_sum, zero_add]

/-! ### C1 — rate-limit (HTTP 429) handling in the fetch client -/

/-- Attempt outcomes for a run that is rate-limited once (Retry-After of
7 seconds) and then succeeds. -/
def respC1 : ℕ → WaqiHttp :=
  fun n => if n = 0 then WaqiHttp.status429 (some 7) else WaqiHttp.okValid

/-- A jitter draw of zero on every attempt. -/
def randC1 : ℕ → ℚ := fun _ => 0

/-- C1 counterexample: after a single 429 naming a 7-second wait, the
claim says the server-dictated 7000 ms is the only delay added, but the
retry loop also sleeps the exponential backoff delay (1000 ms at zero
jitter) at the top of the retry iteration, so the sleep trace is
`[7000, 1000]`, not `[7000]`. -/
theorem fetch429_backoff_counterexample :
    (fetchWaqiData respC1 randC1).sleeps = [7000, 1000] ∧
      (fetchWaqiData respC1 randC1).sleeps ≠ [retryAfterMs (some 7)] := by
  have h : (fetchWaqiData respC1 randC1).sleeps = [7000, 1000] := by
    show (fetchWaqiDataAux respC1 randC1 0 (3 + 1)).sleeps = _
    rw [fetchWaqiDataAux]
    rw [show respC1 0 = WaqiHttp.status429 (some 7) from rfl]
    rw [fetchWaqiDataAux]
    rw [show respC1 1 = WaqiHttp.okValid from rfl]
    norm_num [retryAfterMs, getBackoffDelay, RETRY_CONFIG, randC1, min_def]
  refine ⟨h, ?_⟩
  rw [h]
  norm_num [retryAfterMs]

/-- C1 (amended): an HTTP 429 makes the client sleep the duration named
in the response (default 60 s when absent, via `retryAfterMs`), consume
one attempt slot, and retry — but the retry iteration additionally
applies the normal exponential backoff delay, so the server-dictated
wait is added on top of the backoff delay rather than replacing it. -/
theorem fetch429_sleeps_server_wait_plus_backoff (resp : ℕ → WaqiHttp) (rand : ℕ → ℚ)
    (ra : Option ℕ) (h0 : resp 0 = WaqiHttp.status429 ra) (h1 : resp 1 = WaqiHttp.okValid) :
    fetchWaqiData resp rand =
      ⟨true, [retryAfterMs ra, getBackoffDelay (rand 1) 0], 2⟩ := by
  show fetchWaqiDataAux resp rand 0 (3 + 1) = _
  rw [fetchWaqiDataAux, h0]
  rw [fetchWaqiDataAux, h1]
  rfl

/-- Witness for the amended C1 theorem at the concrete 429 run. -/
theorem fetch429_sleeps_witness :
    respC1 0 = WaqiHttp.status429 (some 7) ∧ respC1 1 = WaqiHttp.okValid ∧
      fetchWaqiData respC1 randC1 =
        ⟨true, [retryAfterMs (some 7), getBackoffDelay (randC1 1) 0], 2⟩ :=
  ⟨rfl, rfl, fetch429_sleeps_server_wait_plus_backoff respC1 randC1 (some 7) rfl rfl⟩

/-! ### C4 — shard selector -/

/-- C4: the shard selector is a pure function of the trigger kind and
hour: manual triggers take the whole configured list; scheduled triggers
take the first `⌈n/2⌉` cities on even hours and the remaining
`n - ⌈n/2⌉` on odd hours (`(n + 1) / 2` is `⌈n/2⌉` on naturals). -/
theorem shard_selector_split {α : Type} (cities : List α) (hour : ℕ) :
    citiesToProcess "manual" hour cities = cities ∧
      (hour % 2 = 0 →
        citiesToProcess "scheduled" hour cities = cities.take ((cities.length + 1) / 2)) ∧
      (hour % 2 = 1 →
        citiesToProcess "scheduled" hour cities = cities.drop ((cities.length + 1) / 2)) ∧
      (cities.take ((cities.length + 1) / 2)).length = (cities.length + 1) / 2 ∧
      (cities.drop ((cities.length + 1) / 2)).length =
        cities.length - (cities.length + 1) / 2 ∧
      cities.take ((cities.length + 1) / 2) ++ cities.drop ((cities.length + 1) / 2) =
        cities := by
  refine ⟨by simp [citiesToProcess], fun h => by simp [citiesToProcess, h], fun h => ?_,
    ?_, List.length_drop _ _, List.take_append_drop _ _⟩
  · have h2 : ¬hour % 2 = 0 := by omega
    simp [citiesToProcess, h2]
  · rw [List.length_take]
    exact min_eq_left (by omega)

/-! ### C5 — city-hour median -/

/-- The standard two-case median of an already-sorted list of values, as
the spec describes it: the middle element for odd counts, the average of
the two middle elements for even counts. -/
def medianOfSorted (s : List ℚ) : ℚ :=
  if s.length % 2 = 0 then (s.getD (s.length / 2 - 1) 0 + s.getD (s.length / 2) 0) / 2
  else s.getD (s.length / 2) 0

/-- A reading carrying only a PM2.5 value. -/
def mkReading (id : ℕ) (v : ℚ) : StationReading :=
  ⟨id, "", some v, none, none, none, none, none, none, none⟩

/-- Four readings whose PM2.5 values are 10, 20, 30, 40 (out of order). -/
def exReadings4 : List StationReading :=
  [mkReading 1 30, mkReading 2 10, mkReading 3 40, mkReading 4 20]

/-- Three readings whose PM2.5 values are 10, 20, 30 (out of order). -/
def exReadings3 : List StationReading :=
  [mkReading 1 30, mkReading 2 10, mkReading 3 20]

/-- C5: whenever any readings with non-null PM2.5 remain, the snapshot is
produced and its median is the standard two-case median of the sorted
PM2.5 values; in particular values [10, 20, 30, 40] give 25 and
[10, 20, 30] give 20. -/
theorem snapshot_median_two_case (readings : List StationReading) (total : ℕ)
    (hne : validReadingsOf readings ≠ []) :
    (∃ s, computeCitySnapshot readings total = some s ∧
        s.medianPm25 = medianOfSorted (sortedPm25Of readings)) ∧
      (computeCitySnapshot exReadings4 4).map (fun s => s.medianPm25) = some 25 ∧
      (computeCitySnapshot exReadings3 3).map (fun s => s.medianPm25) = some 20 := by
  have general : ∀ (rs : List StationReading) (tot : ℕ), validReadingsOf rs ≠ [] →
      ∃ s, computeCitySnapshot rs tot = some s ∧
        s.medianPm25 = medianOfSorted (sortedPm25Of rs) := by
    intro rs tot hrs
    have hlen : ¬(validReadingsOf rs).length = 0 := by
      simpa [List.length_eq_zero] using hrs
    unfold computeCitySnapshot
    rw [if_neg hlen]
    exact ⟨_, rfl, rfl⟩
  refine ⟨general readings total hne, ?_, ?_⟩
  · obtain ⟨s, hs, hm⟩ := general exReadings4 4 (by decide)
    rw [hs, Option.map_some', hm,
      show sortedPm25Of exReadings4 = [10, 20, 30, 40] by
        norm_num [sortedPm25Of, validReadingsOf, exReadings4, mkReading,
          List.insertionSort, List.orderedInsert, List.filter, List.filterMap]]
    norm_num [medianOfSorted]
  · obtain ⟨s, hs, hm⟩ := general exReadings3 3 (by decide)
    rw [hs, Option.map_some', hm,
      show sortedPm25Of exReadings3 = [10, 20, 30] by
        norm_num [sortedPm25Of, validReadingsOf, exReadings3, mkReading,
          List.insertionSort, List.orderedInsert, List.filter, List.filterMap]]
    norm_num [medianOfSorted]

/-- Witness for C5 at the three-reading example. -/
theorem snapshot_median_two_case_witness :
    validReadingsOf exReadings3 ≠ [] ∧
      ((∃ s, computeCitySnapshot exReadings3 3 = some s ∧
          s.medianPm25 = medianOfSorted (sortedPm25Of exReadings3)) ∧
        (computeCitySnapshot exReadings4 4).map (fun s => s.medianPm25) = some 25 ∧
        (computeCitySnapshot exReadings3 3).map (fun s => s.medianPm25) = some 20) :=
  ⟨by decide, snapshot_median_two_case exReadings3 3 (by decide)⟩

/-! ### C2 — daily average and hours-with-data -/

/-- Two snapshot rows for one day: hour 0 has average PM2.5 exactly 0,
hour 1 has average 10. -/
def snapRowsC2 : List SnapRow := [⟨0, 0, 0, 0⟩, ⟨10, 5, 15, 1⟩]

/-- C2 counterexample: with snapshot averages [0, 10], the stored daily
average is 10 because `.filter(Boolean)` drops the zero-valued snapshot
average, while the claimed mean over every stored snapshot is 5. -/
theorem daily_avg_zero_dropped_counterexample :
    (updateDailyAggregate snapRowsC2).map (fun d => d.avgPm25) = some (some 10) ∧
      (snapRowsC2.map (fun s => s.avg_pm25)).sum / (snapRowsC2.length : ℚ) = 5 ∧
      (5 : ℚ) ≠ 10 := by
  refine ⟨?_, by norm_num [snapRowsC2], by norm_num⟩
  norm_num [updateDailyAggregate, snapRowsC2, average, List.filter]

/-- C2 (amended): the daily aggregate is written whenever the day has at
least one snapshot; its average PM2.5 is the arithmetic mean of the
NONZERO snapshot averages (zero averages are removed by the truthiness
filter, and if every average is zero the stored value is null), and
hours-with-data counts every contributing snapshot row. -/
theorem daily_avg_and_hours (r0 : SnapRow) (rest : List SnapRow) :
    ∃ d, updateDailyAggregate (r0 :: rest) = some d ∧
      d.avgPm25 =
        (if (((r0 :: rest).map (fun s => s.avg_pm25)).filter (fun v => decide (v ≠ 0))).length = 0
          then none
          else some
            ((((r0 :: rest).map (fun s => s.avg_pm25)).filter (fun v => decide (v ≠ 0))).sum /
              (((((r0 :: rest).map (fun s => s.avg_pm25)).filter
                  (fun v => decide (v ≠ 0))).length : ℕ) : ℚ))) ∧
      d.hoursWithData = (r0 :: rest).length := by
  unfold updateDailyAggregate
  rw [if_neg (by simp)]
  exact ⟨_, rfl, average_eq_sum_div _, rfl⟩

/-! ### C7 — daily peak hour -/

/-- Running maximum of the snapshot averages, seeded with `m`. -/
def maxAvg : List SnapRow → ℚ → ℚ
  | [], m => m
  | s :: t, m => maxAvg t (max m s.avg_pm25)

/-- The seed never exceeds the running maximum. -/
theorem le_maxAvg : ∀ (t : List SnapRow) (m : ℚ), m ≤ maxAvg t m
  | [], m => le_refl m
  | s :: t, m => le_trans (le_max_left m s.avg_pm25) (le_maxAvg t (max m s.avg_pm25))

/-- The peak fold's value component is the running maximum of the
averages (seeded by the accumulator). -/
theorem peakAux_snd : ∀ (t : List SnapRow) (ph : ℕ) (pp : ℚ),
    (peakAux t (ph, pp)).2 = maxAvg t pp := by
  intro t
  induction t with
  | nil => intro ph pp; rfl
  | cons s t ih =>
    intro ph pp
    by_cases h : pp < s.avg_pm25
    · show (peakAux t (if pp < s.avg_pm25 then (s.recordedHour, s.avg_pm25) else (ph, pp))).2 = _
      rw [if_pos h, ih, show maxAvg (s :: t) pp = maxAvg t (max pp s.avg_pm25) from rfl,
        max_eq_right h.le]
    · show (peakAux t (if pp < s.avg_pm25 then (s.recordedHour, s.avg_pm25) else (ph, pp))).2 = _
      rw [if_neg h, ih, show maxAvg (s :: t) pp = maxAvg t (max pp s.avg_pm25) from rfl,
        max_eq_left (not_lt.mp h)]

/-- The peak fold's hour component: when some row exceeds the seed, it is
the hour of the first row attaining the running maximum; otherwise the
seed hour survives. -/
theorem peakAux_fst : ∀ (t : List SnapRow) (ph : ℕ) (pp : ℚ),
    (pp < maxAvg t pp →
      ∃ r, t.find? (fun x => decide (x.avg_pm25 = maxAvg t pp)) = some r ∧
        (peakAux t (ph, pp)).1 = r.recordedHour ∧ r.avg_pm25 = maxAvg t pp) ∧
    (¬pp < maxAvg t pp → (peakAux t (ph, pp)).1 = ph) := by
  intro t
  induction t with
  | nil =>
    intro ph pp
    exact ⟨fun h => absurd h (lt_irrefl pp), fun _ => rfl⟩
  | cons s t ih =>
    intro ph pp
    by_cases hps : pp < s.avg_pm25
    · have hA : maxAvg (s :: t) pp = maxAvg t s.avg_pm25 := by
        show maxAvg t (max pp s.avg_pm25) = _
        rw [max_eq_right hps.le]
      have hpeak : peakAux (s :: t) (ph, pp) = peakAux t (s.recordedHour, s.avg_pm25) := by
        show peakAux t (if pp < s.avg_pm25 then (s.recordedHour, s.avg_pm25) else (ph, pp)) = _
        rw [if_pos hps]
      have hlt : pp < maxAvg (s :: t) pp := by
        rw [hA]; exact lt_of_lt_of_le hps (le_maxAvg t s.avg_pm25)
      by_cases hsa : s.avg_pm25 < maxAvg t s.avg_pm25
      · refine ⟨fun _ => ?_, fun hno => absurd hlt hno⟩
        obtain ⟨r, hfind, hfst, havg⟩ := (ih s.recordedHour s.avg_pm25).1 hsa
        refine ⟨r, ?_, ?_, ?_⟩
        · rw [hA, List.find?_cons]
          have hne : ¬s.avg_pm25 = maxAvg t s.avg_pm25 := ne_of_lt hsa
          simp only [hne, decide_False]
          exact hfind
        · rw [hpeak]; exact hfst
        · rw [hA]; exact havg
      · have heq : maxAvg t s.avg_pm25 = s.avg_pm25 :=
          le_antisymm (not_lt.mp hsa) (le_maxAvg t s.avg_pm25)
        refine ⟨fun _ => ?_, fun hno => absurd hlt hno⟩
        refine ⟨s, ?_, ?_, ?_⟩
        · rw [hA, heq, List.find?_cons]
          simp only [decide_True]
        · rw [hpeak]; exact (ih s.recordedHour s.avg_pm25).2 hsa
        · rw [hA, heq]
    · have hps' : s.avg_pm25 ≤ pp := not_lt.mp hps
      have hA : maxAvg (s :: t) pp = maxAvg t pp := by
        show maxAvg t (max pp s.avg_pm25) = _
        rw [max_eq_left hps']
      have hpeak : peakAux (s :: t) (ph, pp) = peakAux t (ph, pp) := by
        show peakAux t (if pp < s.avg_pm25 then (s.recordedHour, s.avg_pm25) else (ph, pp)) = _
        rw [if_neg hps]
      by_cases hpa : pp < maxAvg t pp
      · refine ⟨fun _ => ?_, fun hno => absurd (hA ▸ hpa) hno⟩
        obtain ⟨r, hfind, hfst, havg⟩ := (ih ph pp).1 hpa
        refine ⟨r, ?_, ?_, ?_⟩
        · rw [hA, List.find?_cons]
          have hne : ¬s.avg_pm25 = maxAvg t pp := ne_of_lt (lt_of_le_of_lt hps' hpa)
          simp only [hne, decide_False]
          exact hfind
        · rw [hpeak]; exact hfst
        · rw [hA]; exact havg
      · have heq : maxAvg t pp = pp := le_antisymm (not_lt.mp hpa) (le_maxAvg t pp)
        refine ⟨fun hcon => ?_, fun _ => ?_⟩
        · rw [hA, heq] at hcon; exact absurd hcon (lt_irrefl pp)
        · rw [hpeak]; exact (ih ph pp).2 hpa

/-- C7 (amended): when some snapshot of the day has a positive average,
the stored peak hour is the hour of the first snapshot (in query order,
ascending by hour) attaining the day's maximum average and the stored
peak value is that snapshot's average; when no snapshot average is
positive, the stored peak hour and peak value are both 0 (the fold's
initial accumulator), regardless of the snapshots' hours. -/
theorem daily_peak_hour (r0 : SnapRow) (rest : List SnapRow) :
    ∃ d, updateDailyAggregate (r0 :: rest) = some d ∧
      (0 < maxAvg (r0 :: rest) 0 →
        ∃ r, (r0 :: rest).find? (fun x => decide (x.avg_pm25 = maxAvg (r0 :: rest) 0)) = some r ∧
          d.peakHour = r.recordedHour ∧ d.peakPm25 = r.avg_pm25) ∧
      (maxAvg (r0 :: rest) 0 ≤ 0 → d.peakHour = 0 ∧ d.peakPm25 = 0) := by
  unfold updateDailyAggregate
  rw [if_neg (by simp)]
  refine ⟨_, rfl, fun hpos => ?_, fun hle => ?_⟩
  · obtain ⟨r, hfind, hfst, havg⟩ := (peakAux_fst (r0 :: rest) 0 0).1 hpos
    exact ⟨r, hfind, hfst, by
      show (peakAux (r0 :: rest) (0, 0)).2 = r.avg_pm25
      rw [peakAux_snd, havg]⟩
  · have hz : maxAvg (r0 :: rest) 0 = 0 := le_antisymm hle (le_maxAvg _ 0)
    constructor
    · exact (peakAux_fst (r0 :: rest) 0 0).2 (by rw [hz]; exact lt_irrefl 0)
    · show (peakAux (r0 :: rest) (0, 0)).2 = 0
      rw [peakAux_snd, hz]

/-- A single snapshot whose average PM2.5 is exactly 0, recorded at
hour 5. -/
def snapRowsC7 : List SnapRow := [⟨0, 0, 0, 5⟩]

/-- C7 counterexample: the day's only snapshot (hence the one with the
largest average) was recorded at hour 5, but because the peak fold
starts at `(0, 0)` and only updates on a strictly larger average, the
stored peak hour is 0, not 5. -/
theorem daily_peak_hour_counterexample :
    (updateDailyAggregate snapRowsC7).map (fun d => d.peakHour) = some 0 ∧
      snapRowsC7.map (fun s => s.recordedHour) = [5] ∧ (0 : ℕ) ≠ 5 := by
  refine ⟨?_, by norm_num [snapRowsC7], by norm_num⟩
  norm_num [updateDailyAggregate, snapRowsC7, peakAux]

/-! ### C3 — population-weighted national average -/

/-- City A of the spec's worked example: average 10, population 2. -/
def exCityA : CityRow := ⟨1, 10, 10, 10, some 2, "A"⟩

/-- City B of the spec's worked example: average 30, population 1. -/
def exCityB : CityRow := ⟨2, 30, 30, 30, some 1, "B"⟩

/-- C3: with at least one reporting city, the national aggregate is
written; its population-weighted average is the population-weighted sum
of city averages divided by total population when that total is
positive, and falls back to the simple mean otherwise; the spec's
worked example evaluates to 50/3 weighted and 20 simple. -/
theorem national_weighted_average (c0 : CityRow) (rest : List CityRow) :
    (∃ agg, computeNationalAggregateForDate (c0 :: rest) = some agg ∧
        agg.avgPm25 = ((c0 :: rest).map (fun c => c.avg_pm25)).sum / (((c0 :: rest).length : ℕ) : ℚ) ∧
        agg.totalPopulation = ((c0 :: rest).map (fun c => c.population.getD 0)).sum ∧
        (0 < ((c0 :: rest).map (fun c => c.population.getD 0)).sum →
          agg.weightedAvgPm25 =
            ((c0 :: rest).map (fun c => c.avg_pm25 * c.population.getD 0)).sum /
              ((c0 :: rest).map (fun c => c.population.getD 0)).sum) ∧
        (¬0 < ((c0 :: rest).map (fun c => c.population.getD 0)).sum →
          agg.weightedAvgPm25 = agg.avgPm25)) ∧
      (computeNationalAggregateForDate [exCityA, exCityB]).map (fun a => a.weightedAvgPm25) =
        some (50 / 3) ∧
      (computeNationalAggregateForDate [exCityA, exCityB]).map (fun a => a.avgPm25) = some 20 := by
  have general : ∀ (d0 : CityRow) (dr : List CityRow),
      ∃ agg, computeNationalAggregateForDate (d0 :: dr) = some agg ∧
        agg.avgPm25 = ((d0 :: dr).map (fun c => c.avg_pm25)).sum / (((d0 :: dr).length : ℕ) : ℚ) ∧
        agg.totalPopulation = ((d0 :: dr).map (fun c => c.population.getD 0)).sum ∧
        (0 < ((d0 :: dr).map (fun c => c.population.getD 0)).sum →
          agg.weightedAvgPm25 =
            ((d0 :: dr).map (fun c => c.avg_pm25 * c.population.getD 0)).sum /
              ((d0 :: dr).map (fun c => c.population.getD 0)).sum) ∧
        (¬0 < ((d0 :: dr).map (fun c => c.population.getD 0)).sum →
          agg.weightedAvgPm25 =
            ((d0 :: dr).map (fun c => c.avg_pm25)).sum / (((d0 :: dr).length : ℕ) : ℚ)) := by
    intro d0 dr
    refine ⟨_, rfl, ?_, ?_, ?_, ?_⟩
    · show (d0 :: dr).foldl (fun sum c => sum + c.avg_pm25) (0 : ℚ) / _ = _
      rw [foldl_add_map_eq_sum (fun c : CityRow => c.avg_pm25), zero_add]
    · show (d0 :: dr).foldl (fun sum c => sum + c.population.getD 0) (0 : ℚ) = _
      rw [foldl_add_map_eq_sum (fun c : CityRow => c.population.getD 0), zero_add]
    · intro hpos
      show (if 0 < (d0 :: dr).foldl (fun sum c => sum + c.population.getD 0) (0 : ℚ) then _ else _) = _
      rw [foldl_add_map_eq_sum (fun c : CityRow => c.population.getD 0), zero_add, if_pos hpos,
        foldl_add_map_eq_sum (fun c : CityRow => c.avg_pm25 * c.population.getD 0), zero_add]
    · intro hneg
      show (if 0 < (d0 :: dr).foldl (fun sum c => sum + c.population.getD 0) (0 : ℚ) then _ else _) = _
      rw [foldl_add_map_eq_sum (fun c : CityRow => c.population.getD 0), zero_add, if_neg hneg,
        foldl_add_map_eq_sum (fun c : CityRow => c.avg_pm25), zero_add]
  refine ⟨?_, ?_, ?_⟩
  · obtain ⟨agg, h1, h2, h3, h4, h5⟩ := general c0 rest
    exact ⟨agg, h1, h2, h3, h4, fun hneg => by rw [h5 hneg, h2]⟩
  · obtain ⟨agg, h1, _, h3, h4, _⟩ := general exCityA [exCityB]
    rw [show ([exCityA, exCityB] : List CityRow) = exCityA :: [exCityB] from rfl, h1,
      Option.map_some']
    have hpos : (0 : ℚ) < ((exCityA :: [exCityB]).map (fun c => c.population.getD 0)).sum := by
      norm_num [exCityA, exCityB]
    rw [h4 hpos]
    norm_num [exCityA, exCityB]
  · obtain ⟨agg, h1, h2, _, _, _⟩ := general exCityA [exCityB]
    rw [show ([exCityA, exCityB] : List CityRow) = exCityA :: [exCityB] from rfl, h1,
      Option.map_some', h2]
    norm_num [exCityA, exCityB]

/-! ### C8 — best and worst cities -/

/-- The first city (in query order) with the minimal average PM2.5. -/
def firstMinCity : CityRow → List CityRow → CityRow
  | c, [] => c
  | c, d :: t =>
    if c.avg_pm25 ≤ (firstMinCity d t).avg_pm25 then c else firstMinCity d t

/-- The last city (in query order) with the maximal average PM2.5. -/
def lastMaxCity : CityRow → List CityRow → CityRow
  | c, [] => c
  | c, d :: t =>
    if (lastMaxCity d t).avg_pm25 < c.avg_pm25 then c else lastMaxCity d t

/-- The element a `getLast?` returns is a member of the list. -/
theorem mem_of_getLast?_eq {α : Type} : ∀ (l : List α) (a : α), l.getLast? = some a → a ∈ l
  | [], a, h => by simp at h
  | [b], a, h => by
    simp only [List.getLast?_singleton, Option.some.injEq] at h
    simp [h]
  | b :: c :: t, a, h => by
    rw [List.getLast?_cons_cons] at h
    exact List.mem_cons_of_mem b (mem_of_getLast?_eq (c :: t) a h)

/-- An ordered insert never produces the empty list. -/
theorem orderedInsert_ne_nil (c : CityRow) (s : List CityRow) :
    List.orderedInsert cityLe c s ≠ [] := by
  cases s with
  | nil => simp
  | cons b l =>
    show (if cityLe c b then c :: b :: l else b :: List.orderedInsert cityLe c l) ≠ []
    split <;> simp

/-- Inserting into a sorted list keeps the old last element unless the
inserted one is strictly larger. -/
theorem getLast?_orderedInsert (c : CityRow) :
    ∀ (s : List CityRow), List.Sorted cityLe s → ∀ m, s.getLast? = some m →
      (List.orderedInsert cityLe c s).getLast? =
        some (if m.avg_pm25 < c.avg_pm25 then c else m)
  | [], _, m, hm => by simp at hm
  | [b], _, m, hm => by
    have hmb : b = m := by simpa using hm
    subst hmb
    by_cases h : cityLe c b
    · rw [List.orderedInsert_of_le _ _ h, if_neg (not_lt.mpr h)]
      rfl
    · have hlt : b.avg_pm25 < c.avg_pm25 := not_le.mp h
      show (if cityLe c b then c :: b :: [] else b :: List.orderedInsert cityLe c []).getLast? = _
      rw [if_neg h, if_pos hlt]
      rfl
  | b :: b' :: t, hs, m, hm => by
    rw [List.getLast?_cons_cons] at hm
    by_cases h : cityLe c b
    · rw [List.orderedInsert_of_le _ _ h]
      have hbm : cityLe b m :=
        List.rel_of_sorted_cons hs m (mem_of_getLast?_eq _ _ hm)
      rw [if_neg (not_lt.mpr (le_trans h hbm))]
      rw [List.getLast?_cons_cons, List.getLast?_cons_cons]
      exact hm
    · show (if cityLe c b then c :: b :: b' :: t
          else b :: List.orderedInsert cityLe c (b' :: t)).getLast? = _
      rw [if_neg h]
      have ih := getLast?_orderedInsert c (b' :: t) hs.of_cons m hm
      obtain ⟨x, xs, hxxs⟩ : ∃ x xs, List.orderedInsert cityLe c (b' :: t) = x :: xs := by
        cases hcase : List.orderedInsert cityLe c (b' :: t) with
        | nil => exact absurd hcase (orderedInsert_ne_nil c (b' :: t))
        | cons x xs => exact ⟨x, xs, rfl⟩
      rw [hxxs, List.getLast?_cons_cons, ← hxxs]
      exact ih

/-- The head of the stable sort of a nonempty list is the first city
with minimal average. -/
theorem head?_insertionSort_cityLe : ∀ (c : CityRow) (t : List CityRow),
    (List.insertionSort cityLe (c :: t)).head? = some (firstMinCity c t) := by
  intro c t
  induction t generalizing c with
  | nil => rfl
  | cons d t' ih =>
    show (List.orderedInsert cityLe c (List.insertionSort cityLe (d :: t'))).head? = _
    obtain ⟨m, s', hms⟩ : ∃ m s', List.insertionSort cityLe (d :: t') = m :: s' := by
      cases hcase : List.insertionSort cityLe (d :: t') with
      | nil =>
        have := List.length_insertionSort cityLe (d :: t')
        rw [hcase] at this
        simp at this
      | cons m s' => exact ⟨m, s', rfl⟩
    have hm : m = firstMinCity d t' := by
      have hh := ih d
      rw [hms] at hh
      simpa using hh
    rw [hms]
    show (if cityLe c m then c :: m :: s' else m :: List.orderedInsert cityLe c s').head? = _
    show _ = some (if c.avg_pm25 ≤ (firstMinCity d t').avg_pm25 then c else firstMinCity d t')
    rw [← hm]
    by_cases h : cityLe c m
    · rw [if_pos h, if_pos (show c.avg_pm25 ≤ m.avg_pm25 from h)]
      rfl
    · rw [if_neg h, if_neg (show ¬c.avg_pm25 ≤ m.avg_pm25 from h)]
      rfl

/-- The last element of the stable sort of a nonempty list is the last
city with maximal average. -/
theorem getLast?_insertionSort_cityLe : ∀ (c : CityRow) (t : List CityRow),
    (List.insertionSort cityLe (c :: t)).getLast? = some (lastMaxCity c t) := by
  intro c t
  induction t generalizing c with
  | nil => rfl
  | cons d t' ih =>
    show (List.orderedInsert cityLe c (List.insertionSort cityLe (d :: t'))).getLast? = _
    rw [getLast?_orderedInsert c _ (List.sorted_insertionSort cityLe (d :: t'))
      (lastMaxCity d t') (ih d)]
    rfl

/-- The first-minimal city really attains the minimum. -/
theorem firstMinCity_le : ∀ (c : CityRow) (t : List CityRow), ∀ x ∈ c :: t,
    (firstMinCity c t).avg_pm25 ≤ x.avg_pm25 := by
  intro c t
  induction t generalizing c with
  | nil =>
    intro x hx
    rw [List.mem_singleton] at hx
    subst hx
    exact le_refl _
  | cons d t' ih =>
    intro x hx
    show (if c.avg_pm25 ≤ (firstMinCity d t').avg_pm25 then c else firstMinCity d t').avg_pm25 ≤ _
    rcases List.mem_cons.mp hx with hx | hx
    · subst hx
      split
      · exact le_refl _
      · next h => exact le_of_lt (not_le.mp h)
    · have hdt := ih d x hx
      split
      · next h => exact le_trans h hdt
      · exact hdt

/-- The last-maximal city really attains the maximum. -/
theorem le_lastMaxCity : ∀ (c : CityRow) (t : List CityRow), ∀ x ∈ c :: t,
    x.avg_pm25 ≤ (lastMaxCity c t).avg_pm25 := by
  intro c t
  induction t generalizing c with
  | nil =>
    intro x hx
    rw [List.mem_singleton] at hx
    subst hx
    exact le_refl _
  | cons d t' ih =>
    intro x hx
    show _ ≤ (if (lastMaxCity d t').avg_pm25 < c.avg_pm25 then c else lastMaxCity d t').avg_pm25
    rcases List.mem_cons.mp hx with hx | hx
    · subst hx
      split
      · exact le_refl _
      · next h => exact not_lt.mp h
    · have hdt := ih d x hx
      split
      · next h => exact le_trans hdt (le_of_lt h)
      · exact hdt

/-- C8 (amended): the best city is the reporting city with minimal
average PM2.5, ties broken in favor of the FIRST city in query order;
the worst city is the one with maximal average PM2.5, but ties are
broken in favor of the LAST city in query order (the stable sort keeps
tied cities in query order and the code takes the sorted array's last
element). -/
theorem national_best_worst_cities (c0 : CityRow) (rest : List CityRow) :
    ∃ agg, computeNationalAggregateForDate (c0 :: rest) = some agg ∧
      agg.bestCityId = (firstMinCity c0 rest).city_id ∧
      agg.worstCityId = (lastMaxCity c0 rest).city_id ∧
      (∀ x ∈ c0 :: rest, (firstMinCity c0 rest).avg_pm25 ≤ x.avg_pm25) ∧
      (∀ x ∈ c0 :: rest, x.avg_pm25 ≤ (lastMaxCity c0 rest).avg_pm25) ∧
      firstMinCity c0 rest ∈ c0 :: rest ∧ lastMaxCity c0 rest ∈ c0 :: rest := by
  refine ⟨_, rfl, ?_, ?_, firstMinCity_le c0 rest, le_lastMaxCity c0 rest, ?_, ?_⟩
  · show ((List.insertionSort cityLe (c0 :: rest)).headD c0).city_id = _
    rw [List.headD_eq_head?, head?_insertionSort_cityLe c0 rest]
    rfl
  · show ((List.insertionSort cityLe (c0 :: rest)).getLastD c0).city_id = _
    rw [List.getLastD_eq_getLast?, getLast?_insertionSort_cityLe c0 rest]
    rfl
  · have := head?_insertionSort_cityLe c0 rest
    have hmem : firstMinCity c0 rest ∈ List.insertionSort cityLe (c0 :: rest) :=
      List.mem_of_mem_head? (by rw [this]; rfl)
    exact (List.perm_insertionSort cityLe (c0 :: rest)).mem_iff.mp hmem
  · have := getLast?_insertionSort_cityLe c0 rest
    have hmem : lastMaxCity c0 rest ∈ List.insertionSort cityLe (c0 :: rest) :=
      mem_of_getLast?_eq _ _ this
    exact (List.perm_insertionSort cityLe (c0 :: rest)).mem_iff.mp hmem

/-- Two cities tied at the maximal average PM2.5 of 30. -/
def exCityT1 : CityRow := ⟨1, 30, 30, 30, some 1, "T1"⟩

/-- The second of the tied cities. -/
def exCityT2 : CityRow := ⟨2, 30, 30, 30, some 1, "T2"⟩

/-- C8 counterexample: with two cities tied for the maximum average, the
stored worst city is the one appearing LAST in the query result (id 2),
not the first-seen one (id 1) as claimed. -/
theorem national_worst_tie_counterexample :
    (computeNationalAggregateForDate [exCityT1, exCityT2]).map (fun a => a.worstCityId) =
        some 2 ∧
      exCityT1.avg_pm25 = exCityT2.avg_pm25 ∧ exCityT1.city_id = 1 ∧ (2 : ℕ) ≠ 1 := by
  refine ⟨?_, rfl, rfl, by norm_num⟩
  show ((computeNationalAggregateForDate (exCityT1 :: [exCityT2])).map
    (fun a => a.worstCityId)) = some 2
  simp only [computeNationalAggregateForDate, Option.map_some']
  rw [show List.getLastD (List.insertionSort cityLe (exCityT1 :: [exCityT2])) exCityT1
      = exCityT2 by decide]
  rfl

/-! ### C6 — backfill over an inclusive date range -/

/-- The backfill trace lists every date in the range, in order, paired
with its pointwise outcome. -/
theorem backfillAux_log (db : ℕ → Except Unit (List CityRow)) :
    ∀ (fuel d : ℕ),
      (backfillAux db d fuel).log = (List.range' d fuel).map (fun x => (x, dayOutcome db x)) := by
  intro fuel
  induction fuel with
  | zero => intro d; rfl
  | succ fuel ih =>
    intro d
    rw [List.range'_succ, List.map_cons]
    cases hdb : db d with
    | error e =>
      show (backfillAux db d (fuel + 1)).log = _
      unfold backfillAux
      rw [hdb]
      simp only [dayOutcome, hdb]
      rw [ih (d + 1)]
      rfl
    | ok rows =>
      cases hagg : computeNationalAggregateForDate rows with
      | none =>
        unfold backfillAux
        rw [hdb]
        simp only [hagg, dayOutcome, hdb]
        rw [ih (d + 1)]
        rfl
      | some agg =>
        unfold backfillAux
        rw [hdb]
        simp only [hagg, dayOutcome, hdb]
        rw [ih (d + 1)]
        rfl

/-- The error counter counts exactly the dates whose computation throws. -/
theorem backfillAux_errors (db : ℕ → Except Unit (List CityRow)) :
    ∀ (fuel d : ℕ),
      (backfillAux db d fuel).errors =
        ((List.range' d fuel).filter (fun x => isErrorDay db x)).length := by
  intro fuel
  induction fuel with
  | zero => intro d; rfl
  | succ fuel ih =>
    intro d
    rw [List.range'_succ]
    cases hdb : db d with
    | error e =>
      unfold backfillAux
      rw [hdb]
      have hday : isErrorDay db d = true := by simp [isErrorDay, dayOutcome, hdb]
      simp only [List.filter_cons, hday, if_pos]
      rw [List.length_cons, ih (d + 1)]
    | ok rows =>
      have hday : isErrorDay db d = false := by
        cases hagg : computeNationalAggregateForDate rows with
        | none => simp [isErrorDay, dayOutcome, hdb, hagg]
        | some agg => simp [isErrorDay, dayOutcome, hdb, hagg]
      cases hagg : computeNationalAggregateForDate rows with
      | none =>
        unfold backfillAux
        rw [hdb]
        simp only [hagg, List.filter_cons, hday]
        rw [ih (d + 1)]
        simp
      | some agg =>
        unfold backfillAux
        rw [hdb]
        simp only [hagg, List.filter_cons, hday]
        rw [ih (d + 1)]
        simp

/-- The processed counter counts exactly the dates that produce and
store a national row. -/
theorem backfillAux_processed (db : ℕ → Except Unit (List CityRow)) :
    ∀ (fuel d : ℕ),
      (backfillAux db d fuel).processed =
        ((List.range' d fuel).filter (fun x => isProcessedDay db x)).length := by
  intro fuel
  induction fuel with
  | zero => intro d; rfl
  | succ fuel ih =>
    intro d
    rw [List.range'_succ]
    cases hdb : db d with
    | error e =>
      unfold backfillAux
      rw [hdb]
      have hday : isProcessedDay db d = false := by simp [isProcessedDay, dayOutcome, hdb]
      simp only [List.filter_cons, hday]
      rw [ih (d + 1)]
      simp
    | ok rows =>
      cases hagg : computeNationalAggregateForDate rows with
      | none =>
        unfold backfillAux
        rw [hdb]
        have hday : isProcessedDay db d = false := by
          simp [isProcessedDay, dayOutcome, hdb, hagg]
        simp only [hagg, List.filter_cons, hday]
        rw [ih (d + 1)]
        simp
      | some agg =>
        unfold backfillAux
        rw [hdb]
        have hday : isProcessedDay db d = true := by
          simp [isProcessedDay, dayOutcome, hdb, hagg]
        simp only [hagg, List.filter_cons, hday, if_pos]
        rw [List.length_cons, ih (d + 1)]

/-- Looking up a key of a pointwise-tabulated association list returns
its tabulated value. -/
theorem lookup_map_pair (g : ℕ → DayOutcome) :
    ∀ (l : List ℕ) (d : ℕ), d ∈ l →
      (l.map (fun x => (x, g x))).lookup d = some (g d) := by
  intro l
  induction l with
  | nil => intro d h; exact absurd h (List.not_mem_nil d)
  | cons x t ih =>
    intro d h
    by_cases hdx : d = x
    · subst hdx
      simp [List.lookup]
    · have hdt : d ∈ t := by
        rcases List.mem_cons.mp h with h | h
        · exact absurd h hdx
        · exact h
      have hbeq : (d == x) = false := by simpa using hdx
      simp only [List.map_cons, List.lookup, hbeq]
      exact ih d hdt

/-- C6: backfill over the inclusive range `[a, a + k]` visits every date
exactly once and in order; a date whose city-day query returns no rows
appears in the trace as skipped (no national row is written for it,
and it is counted neither as processed nor as an error); a date whose
computation throws appears as an error and is counted, while all dates
of the range are still visited; the two returned counters count the
processed and the errored dates. -/
theorem backfill_inclusive_skip_error (db : ℕ → Except Unit (List CityRow)) (a k : ℕ) :
    ((backfillNationalAggregates db a (a + k)).log.map Prod.fst = List.range' a (k + 1)) ∧
      (∀ d, a ≤ d → d ≤ a + k → db d = Except.ok [] →
        (backfillNationalAggregates db a (a + k)).log.lookup d = some DayOutcome.skippedDay ∧
          ∀ agg, (d, DayOutcome.processedDay agg) ∉
            (backfillNationalAggregates db a (a + k)).log) ∧
      (∀ d e, a ≤ d → d ≤ a + k → db d = Except.error e →
        (backfillNationalAggregates db a (a + k)).log.lookup d = some DayOutcome.errorDay) ∧
      (backfillNationalAggregates db a (a + k)).errors =
        ((List.range' a (k + 1)).filter (fun x => isErrorDay db x)).length ∧
      (backfillNationalAggregates db a (a + k)).processed =
        ((List.range' a (k + 1)).filter (fun x => isProcessedDay db x)).length := by
  have hfuel : a + k + 1 - a = k + 1 := by omega
  have hbf : backfillNationalAggregates db a (a + k) = backfillAux db a (k + 1) := by
    unfold backfillNationalAggregates
    rw [hfuel]
  have hmem : ∀ d, a ≤ d → d ≤ a + k → d ∈ List.range' a (k + 1) := by
    intro d h1 h2
    rw [List.mem_range'_1]
    omega
  refine ⟨?_, ?_, ?_, ?_, ?_⟩
  · rw [hbf, backfillAux_log]
    rw [List.map_map]
    exact List.map_id'' (fun _ => rfl) _
  · intro d h1 h2 hdb
    have hout : dayOutcome db d = DayOutcome.skippedDay := by
      simp [dayOutcome, hdb, computeNationalAggregateForDate]
    constructor
    · rw [hbf, backfillAux_log]
      rw [lookup_map_pair (dayOutcome db) _ d (hmem d h1 h2), hout]
    · intro agg hin
      rw [hbf, backfillAux_log] at hin
      obtain ⟨x, _, hx⟩ := List.mem_map.mp hin
      have hxd : x = d := congrArg Prod.fst hx
      subst hxd
      have : dayOutcome db x = DayOutcome.processedDay agg := congrArg Prod.snd hx
      rw [hout] at this
      exact absurd this (by simp)
  · intro d e h1 h2 hdb
    have hout : dayOutcome db d = DayOutcome.errorDay := by simp [dayOutcome, hdb]
    rw [hbf, backfillAux_log]
    rw [lookup_map_pair (dayOutcome db) _ d (hmem d h1 h2), hout]
  · rw [hbf, backfillAux_errors]
  · rw [hbf, backfillAux_processed]

/-! ### C9 — exact-zero readings: flagged but not excluded -/

/-- C9: a reading whose PM2.5 is exactly 0 is reported by the anomaly
detector as a `flatline` anomaly (a kind distinct from `outlier`), it
passes the PM2.5 bounds validation, and it still participates in the
snapshot computation: it stays in the valid-readings list, its value 0
is among the sorted PM2.5 values that feed avg/min/max/median, and the
snapshot is produced. -/
theorem zero_reading_flagged_not_excluded (v : VStationReading)
    (hv : v.pm25Concentration = some 0) (r : StationReading) (l : List StationReading)
    (total : ℕ) (hr : r.pm25 = some 0) (hmem : r ∈ l) :
    (∃ rep, detectImpossibleValues v = some rep ∧ rep.type = AnomalyType.flatline ∧
        rep.type ≠ AnomalyType.outlier) ∧
      (validatePm25Value (some 0)).isValid = true ∧
      r ∈ validReadingsOf l ∧ (0 : ℚ) ∈ sortedPm25Of l ∧
      computeCitySnapshot l total ≠ none := by
  have hvr : r ∈ validReadingsOf l :=
    List.mem_filter.mpr ⟨hmem, by simp [hr]⟩
  refine ⟨?_, ?_, hvr, ?_, ?_⟩
  · simp only [detectImpossibleValues, hv]
    rw [if_pos trivial]
    exact ⟨_, rfl, rfl, by simp⟩
  · norm_num [validatePm25Value, PM25_BOUNDS]
  · have h0 : (0 : ℚ) ∈ (validReadingsOf l).filterMap (fun x => x.pm25) :=
      List.mem_filterMap.mpr ⟨r, hvr, hr⟩
    exact ((List.perm_insertionSort (fun a b => a ≤ b) _).mem_iff).mpr h0
  · have hlen : ¬(validReadingsOf l).length = 0 := by
      simpa [List.length_eq_zero] using List.ne_nil_of_mem hvr
    unfold computeCitySnapshot
    rw [if_neg hlen]
    simp

/-- A site-side reading with PM2.5 exactly 0. -/
def vZero : VStationReading := ⟨7, "Anand Vihar", some 0⟩

/-- A worker-side reading with PM2.5 exactly 0. -/
def rZero : StationReading := mkReading 1 0

/-- A city-hour with the zero reading and one normal reading. -/
def lZero : List StationReading := [rZero, mkReading 2 12]

/-- Witness for C9 at the concrete zero reading. -/
theorem zero_reading_flagged_witness :
    (vZero.pm25Concentration = some 0 ∧ rZero.pm25 = some 0 ∧ rZero ∈ lZero) ∧
      ((∃ rep, detectImpossibleValues vZero = some rep ∧ rep.type = AnomalyType.flatline ∧
          rep.type ≠ AnomalyType.outlier) ∧
        (validatePm25Value (some 0)).isValid = true ∧
        rZero ∈ validReadingsOf lZero ∧ (0 : ℚ) ∈ sortedPm25Of lZero ∧
        computeCitySnapshot lZero 2 ≠ none) :=
  ⟨⟨rfl, rfl, by decide⟩,
    zero_reading_flagged_not_excluded vZero rfl rZero lZero 2 rfl (by decide)⟩

/-! ### C10 — valid stations never exceed total stations -/

/-- C10: whenever the readings are drawn from the city's configured
stations with at most one reading per station (pairwise-distinct station
ids, all belonging to the configured id list) and the configured station
count is passed as the total, any snapshot actually produced satisfies
`validStations ≤ totalStations`. -/
theorem snapshot_valid_le_total (readings : List StationReading) (stationIds : List ℕ)
    (total : ℕ) (s : CitySnapshot)
    (hnodup : (readings.map (fun r => r.stationId)).Nodup)
    (hsub : ∀ r ∈ readings, r.stationId ∈ stationIds)
    (htotal : stationIds.length = total)
    (hs : computeCitySnapshot readings total = some s) :
    s.validStations ≤ s.totalStations := by
  unfold computeCitySnapshot at hs
  by_cases h0 : (validReadingsOf readings).length = 0
  · rw [if_pos h0] at hs
    exact absurd hs (by simp)
  · rw [if_neg h0] at hs
    have hrec := Option.some.inj hs
    have h1 : s.validStations = (validReadingsOf readings).length := by rw [← hrec]
    have h2 : s.totalStations = total := by rw [← hrec]
    rw [h1, h2, ← htotal]
    have hsubf : (readings.map (fun r => r.stationId)).toFinset ⊆ stationIds.toFinset := by
      intro x hx
      rw [List.mem_toFinset] at hx ⊢
      obtain ⟨r, hrr, hxx⟩ := List.mem_map.mp hx
      subst hxx
      exact hsub r hrr
    calc (validReadingsOf readings).length
        ≤ readings.length := List.length_filter_le _ _
      _ = (readings.map (fun r => r.stationId)).length := (List.length_map _ _).symm
      _ = (readings.map (fun r => r.stationId)).toFinset.card :=
          (List.toFinset_card_of_nodup hnodup).symm
      _ ≤ stationIds.toFinset.card := Finset.card_le_card hsubf
      _ ≤ stationIds.length := List.toFinset_card_le _

/-- Readings for distinct stations 1 and 2 (one of them reporting 0). -/
def readingsC10 : List StationReading := [mkReading 1 5, mkReading 2 0]

/-- The city's three configured station ids. -/
def stationIdsC10 : List ℕ := [1, 2, 3]

/-- The snapshot computed from `readingsC10` with 3 configured
stations. -/
def snapC10 : CitySnapshot :=
  ⟨5 / 2, 0, 5, 5 / 2, none, none, none, none, none, 3, 2, none, "healthy"⟩

/-- Witness for C10 at the concrete two-reading city. -/
theorem snapshot_valid_le_total_witness :
    ((readingsC10.map (fun r => r.stationId)).Nodup ∧
        (∀ r ∈ readingsC10, r.stationId ∈ stationIdsC10) ∧
        stationIdsC10.length = 3 ∧ computeCitySnapshot readingsC10 3 = some snapC10) ∧
      snapC10.validStations ≤ snapC10.totalStations := by
  have hcomp : computeCitySnapshot readingsC10 3 = some snapC10 := by
    have hvalid : validReadingsOf readingsC10 = readingsC10 := by decide
    have hsort : sortedPm25Of readingsC10 = [0, 5] := by decide
    have hdom : dominantPollutantOf readingsC10 = none := by decide
    simp only [computeCitySnapshot]
    rw [hvalid, hsort, hdom]
    rw [if_neg (by decide)]
    simp only [Option.some.injEq, snapC10, CitySnapshot.mk.injEq]
    norm_num [average, filterTruthy, readingsC10, mkReading, List.filterMap, List.filter,
      List.headD, List.getLastD, List.getD]
  exact ⟨⟨by decide, by decide, rfl, hcomp⟩,
    snapshot_valid_le_total readingsC10 stationIdsC10 3 snapC10 (by decide) (by decide)
      rfl hcomp⟩
